import Mathlib

/-!
Verification of the LogiTrackPro optimizer service (`src/optimizer`) against its
natural-language specification.

The embedding follows the source:
  * `main.py` — request/response models and the `optimize` boundary handler;
  * `solver.py` — the `IRPSolver` class: location map, customer selection,
    per-day route construction, inventory state machine.

Modelling conventions, each noted again at the definition it concerns:
  * Python floats are modelled as exact rationals (`ℚ`); `round(x, 2)` is
    modelled as exact rational rounding to two decimals (`roundTo2`).
  * The distance matrix is an explicit parameter `dist : ℕ → ℕ → ℕ`
    (metres between location ids, depot = 0), exactly the role played by
    `self.distance_matrix` composed with the sorted-id index translation
    in the source; `solver.py` fills it with truncated haversine values,
    an irrational-valued formula that is kept abstract.
  * The external OR-Tools day solver (`RoutingModel.SolveWithParameters`)
    is a third-party library call and is not part of the repository's code;
    the repository's own routing code is `_create_fallback_routes`
    (the path taken whenever OR-Tools yields no solution) and the
    solution-extraction loop, both embedded here.
-/

namespace LogiTrackPro

/-- `CustomerData` (main.py lines 43-51). Ids are naturals, reals are `ℚ`. -/
structure CustomerData where
  id : Nat
  latitude : ℚ
  longitude : ℚ
  demand_rate : ℚ
  max_inventory : ℚ
  current_inventory : ℚ
  min_inventory : ℚ
  priority : ℤ
  deriving Repr, DecidableEq

/-- `VehicleData` (main.py lines 54-59). -/
structure VehicleData where
  id : Nat
  capacity : ℚ
  cost_per_km : ℚ
  fixed_cost : ℚ
  max_distance : ℚ
  deriving Repr, DecidableEq

/-- `WarehouseData` (main.py lines 36-40). -/
structure WarehouseData where
  id : Nat
  latitude : ℚ
  longitude : ℚ
  stock : ℚ
  deriving Repr, DecidableEq

/-- `StopResult` (solver.py lines 15-20).  `arrival_time` is kept as exact
minutes since midnight; the source formats it to an "HH:MM" string only on
emission. -/
structure StopResult where
  customer_id : Nat
  sequence : Nat
  quantity : ℚ
  arrival_time : ℚ
  deriving Repr, DecidableEq

/-- `RouteResult` (solver.py lines 23-31).  The calendar-date string is the
formatted `start_date + day` and carries no further information; it is not
modelled. -/
structure RouteResult where
  day : Nat
  vehicle_id : Nat
  total_distance : ℚ
  total_cost : ℚ
  total_load : ℚ
  stops : List StopResult
  deriving Repr, DecidableEq

/-- `OptimizeResponse` (solver.py lines 34-40). -/
structure OptimizeResponse where
  success : Bool
  message : String
  total_cost : ℚ
  total_distance : ℚ
  routes : List RouteResult
  deriving Repr, DecidableEq

/-- `OptimizeRequest` (main.py lines 62-67).  `planning_horizon` enters
`range()` in the source, so negative values behave as `0`; it is a natural.
`start_date` only feeds the formatted date strings and is not modelled. -/
structure OptimizeRequest where
  warehouse : WarehouseData
  customers : List CustomerData
  vehicles : List VehicleData
  planning_horizon : Nat
  deriving Repr, DecidableEq

/-- Python's `round(x, 2)` on the exact rational value: round to the nearest
multiple of 1/100 (half away from the lower value).  Written with the
executable `Rat.floor`. -/
def roundTo2 (x : ℚ) : ℚ := ((x * 100 + 1 / 2).floor : ℤ) / 100

/-- Python's `int(x)`: truncation toward zero. -/
def pyInt (x : ℚ) : ℤ := if 0 ≤ x then (x.floor : ℤ) else -((-x).floor : ℤ)

/-- Lookup in a Python dict built as `{c.id: c for c in customers}`
(solver.py line 56): the value for a key is the last customer carrying it. -/
def findCust (customers : List CustomerData) (cid : Nat) : Option CustomerData :=
  customers.foldl (fun acc c => if c.id = cid then some c else acc) none

/-- The inventory map `self.inventory` (solver.py line 66), as a total
function; the source raises `KeyError` on ids outside the customer set and
never reads them on the paths embedded here. -/
def Inventory : Type := Nat → ℚ

/-- Write one key of the inventory map. -/
def updateInv (inv : Inventory) (k : Nat) (v : ℚ) : Inventory :=
  fun m => if m = k then v else inv m

/-- `self.inventory = {c.id: c.current_inventory for c in customers}`
(solver.py line 66). -/
def initialInventory (customers : List CustomerData) : Inventory :=
  fun cid =>
    match findCust customers cid with
    | some c => c.current_inventory
    | none => 0

/-- The per-customer urgency test of `_get_customers_needing_delivery`
(solver.py lines 158-168). -/
def urgent (inv : Inventory) (c : CustomerData) : Bool :=
  if 0 < c.demand_rate then
    decide ((inv c.id - c.min_inventory) / c.demand_rate ≤ 2) || decide (inv c.id ≤ c.min_inventory)
  else
    decide (inv c.id ≤ c.min_inventory)

/-- The sort key `(-priority, -demand_rate)` of solver.py line 172, looked up
through the customer dict. -/
def sortKey (customers : List CustomerData) (cid : Nat) : ℤ × ℚ :=
  match findCust customers cid with
  | some c => (-c.priority, -c.demand_rate)
  | none => (0, 0)

/-- Lexicographic comparison of sort keys: the order used by
`customers_needing_delivery.sort(key=...)` (solver.py lines 171-173). -/
def keyLE (customers : List CustomerData) (a b : Nat) : Prop :=
  (sortKey customers a).1 < (sortKey customers b).1 ∨
    ((sortKey customers a).1 = (sortKey customers b).1 ∧
      (sortKey customers a).2 ≤ (sortKey customers b).2)

instance (customers : List CustomerData) : DecidableRel (keyLE customers) := by
  intro a b
  unfold keyLE
  infer_instance

instance (customers : List CustomerData) : IsTotal Nat (keyLE customers) where
  total a b := by
    rcases lt_trichotomy (sortKey customers a).1 (sortKey customers b).1 with h | h | h
    · exact Or.inl (Or.inl h)
    · rcases le_total (sortKey customers a).2 (sortKey customers b).2 with h2 | h2
      · exact Or.inl (Or.inr ⟨h, h2⟩)
      · exact Or.inr (Or.inr ⟨h.symm, h2⟩)
    · exact Or.inr (Or.inl h)

instance (customers : List CustomerData) : IsTrans Nat (keyLE customers) where
  trans a b c hab hbc := by
    rcases hab with h1 | ⟨h1, h2⟩ <;> rcases hbc with h3 | ⟨h3, h4⟩
    · exact Or.inl (h1.trans h3)
    · exact Or.inl (lt_of_lt_of_eq h1 h3)
    · exact Or.inl (lt_of_eq_of_lt h1 h3)
    · exact Or.inr ⟨h1.trans h3, h2.trans h4⟩

/-- `_get_customers_needing_delivery` (solver.py lines 151-175): keep the
urgent customers (in customer-dict insertion order, i.e. request order) and
sort them by `(-priority, -demand_rate)`.  Python's `list.sort` is a stable
sort; it is embedded as the stable `List.insertionSort`.  The `day` argument
of the source is unused there and omitted. -/
def getCustomersNeedingDelivery (customers : List CustomerData) (inv : Inventory) : List Nat :=
  ((customers.filter (urgent inv)).map (·.id)).insertionSort (keyLE customers)

/-- The candidate scan of the fallback route builder (solver.py lines
408-431): walk the unassigned customers, skip those whose tentative quantity
`min(max_inventory - inventory, remaining_capacity, max_inventory)` is ≤ 0,
and keep the strictly nearest survivor (`dist < best_distance`), so the first
minimum encountered wins.  Returns the chosen customer id.  An id absent from
the customer dict would raise `KeyError` in the source; such ids never occur
in selector-produced candidate lists, and the scan skips them here. -/
def scanBest (dist : Nat → Nat → Nat) (customers : List CustomerData) (inv : Inventory)
    (rc : ℚ) (current : Nat) (unassigned : List Nat) : Option Nat :=
  (unassigned.foldl
    (fun best cid =>
      match findCust customers cid with
      | none => best
      | some c =>
        let q := min (min (c.max_inventory - inv cid) rc) c.max_inventory
        if q ≤ 0 then best
        else
          match best with
          | none => some (cid, dist current cid)
          | some p => if dist current cid < p.2 then some (cid, dist current cid) else best)
    none).map Prod.fst

/-- The inner nearest-neighbour loop of `_create_fallback_routes`
(solver.py lines 407-446): while customers remain and capacity is positive,
pick the nearest deliverable customer, record the committed quantity
`min(max_inventory - inventory, remaining_capacity)` (line 437), consume
capacity, move there, and remove it from the unassigned pool.  Returns the
visit-ordered `(customer, quantity)` pairs and the remaining pool.  `fuel` is
instantiated with the pool size, which bounds the number of iterations since
each iteration removes the chosen customer from the pool. -/
def buildRouteGo (dist : Nat → Nat → Nat) (customers : List CustomerData) (inv : Inventory) :
    Nat → ℚ → Nat → List Nat → List (Nat × ℚ) × List Nat
  | 0, _, _, unassigned => ([], unassigned)
  | fuel + 1, rc, current, unassigned =>
    if unassigned = [] ∨ ¬0 < rc then ([], unassigned)
    else
      match scanBest dist customers inv rc current unassigned with
      | none => ([], unassigned)
      | some best =>
        match findCust customers best with
        | none => ([], unassigned)
        | some c =>
          let q := min (c.max_inventory - inv best) rc
          let rest := buildRouteGo dist customers inv fuel (rc - q) best (unassigned.erase best)
          ((best, q) :: rest.1, rest.2)

/-- One vehicle's route in `_create_fallback_routes`: the nearest-neighbour
loop started at the warehouse (node 0) with the vehicle's full capacity. -/
def buildRoute (dist : Nat → Nat → Nat) (customers : List CustomerData) (inv : Inventory)
    (v : VehicleData) (unassigned : List Nat) : List (Nat × ℚ) × List Nat :=
  buildRouteGo dist customers inv unassigned.length v.capacity 0 unassigned

/-- Closed-tour distance in metres: warehouse → visits in order → warehouse
(solver.py lines 449-463, and the arc accumulation of lines 313-331). -/
def tourDistM (dist : Nat → Nat → Nat) : Nat → List Nat → Nat
  | current, [] => dist current 0
  | current, c :: rest => dist current c + tourDistM dist c rest

/-- Stop assembly shared by both route-construction paths (solver.py lines
340-363 and 469-490): the clock starts at 08:00 at the warehouse, advances by
`distance / 50 km/h` to each stop and by 15 minutes of service time after it;
quantities are reported rounded to 2 decimals.  Times are exact minutes since
midnight (the source formats them to "HH:MM" on emission). -/
def mkStopsGo (dist : Nat → Nat → Nat) : Nat → Nat → ℚ → List (Nat × ℚ) → List StopResult
  | _, _, _, [] => []
  | prev, seq, clock, (cid, q) :: rest =>
    let t := clock + (dist prev cid : ℚ) * 3 / 2500
    ⟨cid, seq, roundTo2 q, t⟩ :: mkStopsGo dist cid (seq + 1) (t + 15) rest

/-- Stops of one route, 1-based sequence, departing the warehouse at 08:00. -/
def mkStops (dist : Nat → Nat → Nat) (pairs : List (Nat × ℚ)) : List StopResult :=
  mkStopsGo dist 0 1 480 pairs

/-- Route metrics and report record for one fallback vehicle (solver.py lines
448-500): closed-tour distance (including the return leg), cost
`fixed_cost + km × cost_per_km`, load = sum of committed quantities, all
rounded to two decimals on emission.  `none` when the vehicle visited no
customer (line 448). -/
def vehicleRouteResult (dist : Nat → Nat → Nat) (v : VehicleData) (day : Nat)
    (pairs : List (Nat × ℚ)) : Option RouteResult :=
  if pairs = [] then none
  else
    let cids := pairs.map Prod.fst
    let km : ℚ := (tourDistM dist 0 cids : ℚ) / 1000
    some
      { day := day + 1
        vehicle_id := v.id
        total_distance := roundTo2 km
        total_cost := roundTo2 (v.fixed_cost + km * v.cost_per_km)
        total_load := roundTo2 ((pairs.map Prod.snd).sum)
        stops := mkStops dist pairs }

/-- The vehicle loop of `_create_fallback_routes` (solver.py lines 397-502):
vehicles are taken in input order while unassigned customers remain; each
vehicle's route is built on the shared unassigned pool.  The source holds the
pool in a Python `set`; only the iteration order of the candidate scan
depends on that, and it only breaks ties between equidistant candidates, so
the pool is kept as a list here. -/
def fallbackGo (dist : Nat → Nat → Nat) (customers : List CustomerData) (inv : Inventory)
    (day : Nat) : List VehicleData → List Nat → List RouteResult
  | [], _ => []
  | v :: vs, unassigned =>
    if unassigned = [] then []
    else
      let built := buildRoute dist customers inv v unassigned
      match vehicleRouteResult dist v day built.1 with
      | none => fallbackGo dist customers inv day vs built.2
      | some r => r :: fallbackGo dist customers inv day vs built.2

/-- `_create_fallback_routes` (solver.py lines 386-504). -/
def createFallbackRoutes (dist : Nat → Nat → Nat) (customers : List CustomerData)
    (vehicles : List VehicleData) (inv : Inventory) (day : Nat)
    (customersToVisit : List Nat) : List RouteResult :=
  fallbackGo dist customers inv day vehicles customersToVisit

/-- `_update_inventory` (solver.py lines 506-509): consume one day of demand,
clamped at zero, for every customer. -/
def consumeDemand (customers : List CustomerData) (inv : Inventory) : Inventory :=
  customers.foldl (fun acc c => updateInv acc c.id (max 0 (acc c.id - c.demand_rate))) inv

/-- The delivery commit of `solve` (solver.py lines 137-138):
`inventory[stop.customer_id] += stop.quantity` over every stop of the day. -/
def commitStops (routes : List RouteResult) (inv : Inventory) : Inventory :=
  routes.foldl
    (fun acc r =>
      r.stops.foldl (fun acc2 s => updateInv acc2 s.customer_id (acc2 s.customer_id + s.quantity))
        acc)
    inv

/-- The `(customer_id, quantity)` pairs of every stop of a route list, in
emission order: the quantities the commit loop of `solve` adds to the
inventory map. -/
def stopPairs (routes : List RouteResult) : List (Nat × ℚ) :=
  routes.flatMap fun r => r.stops.map fun s => (s.customer_id, s.quantity)

/-- Apply a list of `(customer_id, quantity)` additions to the inventory. -/
def applyPairs (pairs : List (Nat × ℚ)) (inv : Inventory) : Inventory :=
  pairs.foldl (fun acc p => updateInv acc p.1 (acc p.1 + p.2)) inv

/-- The observable state of one iteration of the horizon loop. -/
structure DayOutcome where
  routes : List RouteResult
  invAfterCommit : Inventory
  invAfterConsume : Inventory

/-- One day of `solve` (solver.py lines 117-141) with the repository's own
routing path (`_create_fallback_routes`) producing the day's routes: select
urgent customers; with none, just consume demand; otherwise build routes,
commit the delivered quantities, then consume demand. -/
def dayStep (dist : Nat → Nat → Nat) (customers : List CustomerData)
    (vehicles : List VehicleData) (day : Nat) (inv : Inventory) : DayOutcome :=
  let ctv := getCustomersNeedingDelivery customers inv
  if ctv = [] then ⟨[], inv, consumeDemand customers inv⟩
  else
    let routes := createFallbackRoutes dist customers vehicles inv day ctv
    let inv2 := commitStops routes inv
    ⟨routes, inv2, consumeDemand customers inv2⟩

/-- The horizon loop of `solve` as the list of per-day outcomes. -/
def solveDays (dist : Nat → Nat → Nat) (customers : List CustomerData)
    (vehicles : List VehicleData) : Nat → Nat → Inventory → List DayOutcome
  | 0, _, _ => []
  | d + 1, day, inv =>
    let o := dayStep dist customers vehicles day inv
    o :: solveDays dist customers vehicles d (day + 1) o.invAfterConsume

/-- `IRPSolver.solve` (solver.py lines 111-149) on the fallback routing path:
run the horizon, concatenate the route lists, accumulate the (already
rounded) per-route costs and distances, and report with `success=True` and
the route-count message.  Also returns the final inventory map (the state
left in `self.inventory`). -/
def solveFallback (dist : Nat → Nat → Nat) (customers : List CustomerData)
    (vehicles : List VehicleData) (horizon : Nat) : OptimizeResponse × Inventory :=
  let days := solveDays dist customers vehicles horizon 0 (initialInventory customers)
  let routes := (days.map DayOutcome.routes).flatten
  let finalInv := days.foldl (fun _ o => o.invAfterConsume) (initialInventory customers)
  (⟨true,
      "Optimization complete: " ++ toString routes.length ++ " routes generated using OR-Tools",
      roundTo2 ((routes.map RouteResult.total_cost).sum),
      roundTo2 ((routes.map RouteResult.total_distance).sum), routes⟩,
    finalInv)

/-- The `/optimize` handler (main.py lines 106-149): reject an empty customer
list, then an empty vehicle list, each with a structured `success=False`
response; otherwise run the solver. -/
def optimize (dist : Nat → Nat → Nat) (req : OptimizeRequest) : OptimizeResponse :=
  if req.customers = [] then ⟨false, "No customers provided", 0, 0, []⟩
  else if req.vehicles = [] then ⟨false, "No vehicles provided", 0, 0, []⟩
  else (solveFallback dist req.customers req.vehicles req.planning_horizon).1

/-- The delivery quantity reported on the OR-Tools extraction path
(solver.py lines 214-230 and 322-325): `min(max_inventory - inventory,
max_inventory)` scaled to integer grams by `int(qty * 1000)` and scaled
back. -/
def extractionQty (customers : List CustomerData) (inv : Inventory) (cid : Nat) : ℚ :=
  match findCust customers cid with
  | some c => (pyInt (min (c.max_inventory - inv cid) c.max_inventory * 1000) : ℚ) / 1000
  | none => 0

/-- Route extraction for one vehicle of the external OR-Tools day solver
(solver.py lines 306-382).  The library solution is abstracted as the
sequence of customer nodes the vehicle visits; the routing-library index
bookkeeping of the source is normalised to node ids, under which the
`while not routing.IsEnd` walk accumulates every arc of the closed tour
(the end sentinel standing for the depot), and lines 365-372 then add the
return leg a second time and recompute the cost from the enlarged
distance. -/
def extractVehicleRoute (dist : Nat → Nat → Nat) (customers : List CustomerData)
    (inv : Inventory) (v : VehicleData) (day : Nat) (seq : List Nat) : Option RouteResult :=
  if seq = [] then none
  else
    let pairs := seq.map (fun cid => (cid, extractionQty customers inv cid))
    let km : ℚ := (tourDistM dist 0 seq : ℚ) / 1000 + (dist (seq.getLastD 0) 0 : ℚ) / 1000
    some
      { day := day + 1
        vehicle_id := v.id
        total_distance := roundTo2 km
        total_cost := roundTo2 (v.fixed_cost + km * v.cost_per_km)
        total_load := roundTo2 ((pairs.map Prod.snd).sum)
        stops := mkStops dist pairs }

/-- The per-vehicle extraction loop (solver.py lines 303-384), with the
library solution given as one visit sequence per vehicle in vehicle order. -/
def extractRoutes (dist : Nat → Nat → Nat) (customers : List CustomerData)
    (inv : Inventory) (day : Nat) (vehicles : List VehicleData)
    (solution : List (List Nat)) : List RouteResult :=
  (vehicles.zip solution).filterMap fun p => extractVehicleRoute dist customers inv p.1 day p.2

/-- `_build_locations` (solver.py lines 68-73) as the association of location
ids to coordinates: the warehouse is written at key 0 first, then every
customer is written at its own id — a customer with id 0 therefore
overwrites the warehouse entry. -/
def buildLocations (w : WarehouseData) (customers : List CustomerData) :
    Nat → Option (ℚ × ℚ) :=
  customers.foldl
    (fun acc c => fun k => if k = c.id then some (c.latitude, c.longitude) else acc k)
    (fun k => if k = 0 then some (w.latitude, w.longitude) else none)

/-- One entry of `_compute_distance_matrix` (solver.py lines 75-95), indexed
by location ids (the source stores the matrix over the sorted id list; the
sorted-position translation is a bijection on ids and is composed away
here).  `hav` abstracts the haversine formula of lines 97-109, whose
irrational trigonometry stays outside the rational model; entries are
kilometres scaled to metres and truncated by `int`. -/
def distMatrixEntry (hav : ℚ × ℚ → ℚ × ℚ → ℚ) (locs : Nat → Option (ℚ × ℚ))
    (i j : Nat) : ℤ :=
  if i = j then 0
  else
    match locs i, locs j with
    | some a, some b => pyInt (hav a b * 1000)
    | _, _ => 0

/-- Modelled from the spec: the route improver of §4.6 does not exist as
repository code under src/ (the source delegates all intra-day route
improvement to the external OR-Tools local search); this and the following
definitions embed the specified 2-opt operator.  `reverseSegment l a b`
reverses the contiguous positions `a..b` of the tour. -/
def reverseSegment (l : List Nat) (a b : Nat) : List Nat :=
  l.take a ++ ((l.drop a).take (b + 1 - a)).reverse ++ l.drop (b + 1)

/-- Modelled from the spec: all candidate tours obtained by reversing one
contiguous proper segment of the tour (§4.6's scan over index pairs). -/
def twoOptCandidates (l : List Nat) : List (List Nat) :=
  (List.range l.length).flatMap fun a =>
    (List.range l.length).filterMap fun b =>
      if a < b then some (reverseSegment l a b) else none

/-- Modelled from the spec: the first segment reversal whose closed-tour
distance (depot → tour → depot) strictly improves on the current tour
(§4.6's first-improvement rule). -/
def findImprovement (dist : Nat → Nat → Nat) (l : List Nat) : Option (List Nat) :=
  (twoOptCandidates l).find? fun t =>
    decide (tourDistM dist 0 t < tourDistM dist 0 l)

/-- Modelled from the spec: restart the scan after each adopted improvement,
stopping at a full scan without improvement.  `fuel` bounds the rounds; the
top-level entry supplies enough for every possible strict decrease of the
integer tour distance, so the recursion stops only at a local optimum. -/
def twoOptGo (dist : Nat → Nat → Nat) : Nat → List Nat → List Nat
  | 0, l => l
  | fuel + 1, l =>
    match findImprovement dist l with
    | none => l
    | some t => twoOptGo dist fuel t

/-- Modelled from the spec: the 2-opt route improver of §4.6. -/
def twoOpt (dist : Nat → Nat → Nat) (l : List Nat) : List Nat :=
  twoOptGo dist (tourDistM dist 0 l) l

/-! Concrete problem instances used by the witnesses and counterexamples
below.  Distances are metres; all pairs of distinct locations in `distTen`
are 10,010 m apart (≈ the haversine distance between (0°, 0°) and
(0.09°, 0°)). -/

/-- A distance oracle: every pair of distinct locations is 10,010 m apart. -/
def distTen : Nat → Nat → Nat := fun i j => if i = j then 0 else 10010

/-- One empty customer (inventory 0, minimum 1, maximum 100, no demand). -/
def farCustomer : List CustomerData := [⟨1, 0, 0, 0, 100, 0, 1, 1⟩]

/-- One vehicle whose maximum tour length is 5 km. -/
def shortRangeVehicle : List VehicleData := [⟨1, 1000, 1, 100, 5⟩]

/-- Two identically urgent customers, ids 5 and 3 in that request order. -/
def tieCustomers : List CustomerData :=
  [⟨5, 0, 0, 0, 10, 0, 1, 1⟩, ⟨3, 0, 0, 0, 10, 0, 1, 1⟩]

/-- A customer whose deliverable gap `max_inventory - inventory` is
1.004 - 1 = 0.004, below half of the last reported decimal. -/
def tinyGapCustomers : List CustomerData := [⟨1, 0, 0, 0, 251 / 250, 1, 501 / 500, 1⟩]

/-- A small unconstrained vehicle. -/
def smallVehicle : List VehicleData := [⟨1, 5, 1, 10, 0⟩]

/-- Customer 1 starts far above its maximum (1000 on hand, maximum 10) yet
urgent (demand 600/day); customer 2 is an ordinary empty customer. -/
def overstockCustomers : List CustomerData :=
  [⟨1, 0, 0, 600, 10, 1000, 9, 1⟩, ⟨2, 0, 0, 0, 100, 0, 1, 1⟩]

/-- A vehicle of capacity 200 with no range bound. -/
def midVehicle : List VehicleData := [⟨1, 200, 1, 100, 0⟩]

/-- A request with an empty customer list. -/
def emptyCustReq : OptimizeRequest := ⟨⟨1, 0, 0, 0⟩, [], [⟨1, 100, 1, 10, 0⟩], 3⟩

/-- A customer whose id is 0, the key reserved for the warehouse. -/
def zeroIdCustomers : List CustomerData := [⟨0, 7, 8, 1, 10, 5, 1, 1⟩]

/-- A warehouse located away from `zeroIdCustomers`. -/
def mainWarehouse : WarehouseData := ⟨1, 5, 6, 0⟩

/-! ### Rounding lemmas -/

theorem ratFloor_eq_intFloor (q : ℚ) : (q.floor : ℤ) = ⌊q⌋ := by
  rw [Rat.floor_def', Rat.floor_def]

theorem roundTo2_eq (x : ℚ) : roundTo2 x = ((⌊x * 100 + 1 / 2⌋ : ℤ) : ℚ) / 100 := by
  rw [roundTo2, ratFloor_eq_intFloor]

theorem roundTo2_le (x : ℚ) : roundTo2 x ≤ x + 1 / 200 := by
  rw [roundTo2_eq, div_le_iff₀ (by norm_num : (0 : ℚ) < 100)]
  have h : ((⌊x * 100 + 1 / 2⌋ : ℤ) : ℚ) ≤ x * 100 + 1 / 2 := Int.floor_le _
  linarith

theorem lt_roundTo2 (x : ℚ) : x - 1 / 200 < roundTo2 x := by
  rw [roundTo2_eq, lt_div_iff₀ (by norm_num : (0 : ℚ) < 100)]
  have h : x * 100 + 1 / 2 < ((⌊x * 100 + 1 / 2⌋ : ℤ) : ℚ) + 1 := Int.lt_floor_add_one _
  linarith

theorem roundTo2_nonneg {x : ℚ} (h : 0 ≤ x) : 0 ≤ roundTo2 x := by
  rw [roundTo2_eq]
  refine div_nonneg ?_ (by norm_num)
  have h2 : (0 : ℤ) ≤ ⌊x * 100 + 1 / 2⌋ := by
    refine Int.le_floor.mpr ?_
    push_cast
    linarith
  exact_mod_cast h2

theorem abs_roundTo2_sub_le (x : ℚ) : |roundTo2 x - x| ≤ 1 / 200 := by
  rw [abs_le]
  constructor
  · have h := lt_roundTo2 x
    linarith
  · have h := roundTo2_le x
    linarith

/-- C1: a request with an empty customer list is answered by the boundary
handler with the structured no-op response of §7's EmptyCustomers taxonomy:
`success = false`, the explanatory message, zero totals and no routes
(main.py lines 116-123; the code adopts §7's reading, not §6's
`success=true`). -/
theorem optimize_empty_customers (dist : Nat → Nat → Nat) (req : OptimizeRequest)
    (h : req.customers = []) :
    optimize dist req = ⟨false, "No customers provided", 0, 0, []⟩ := by
  rw [optimize, if_pos h]

theorem optimize_empty_customers_witness :
    emptyCustReq.customers = [] ∧
      optimize distTen emptyCustReq = ⟨false, "No customers provided", 0, 0, []⟩ :=
  ⟨rfl, optimize_empty_customers distTen emptyCustReq rfl⟩

/-- C10: with `planning_horizon = 0` the horizon loop of `solve` never runs:
the response reports `success = true`, no routes and zero totals, and the
inventory state is exactly the initial inventory (solver.py lines 111-149). -/
theorem solve_zero_horizon (dist : Nat → Nat → Nat) (customers : List CustomerData)
    (vehicles : List VehicleData) :
    (solveFallback dist customers vehicles 0).1.success = true ∧
      (solveFallback dist customers vehicles 0).1.routes = [] ∧
      (solveFallback dist customers vehicles 0).1.total_cost = 0 ∧
      (solveFallback dist customers vehicles 0).1.total_distance = 0 ∧
      (solveFallback dist customers vehicles 0).2 = initialInventory customers := by
  refine ⟨rfl, rfl, ?_, ?_, rfl⟩ <;>
    norm_num [solveFallback, solveDays, roundTo2_eq]

/-- C2 fails on the code: a request whose single vehicle has
`max_distance = 5` km still yields, on the repository's own
nearest-neighbour routing path, a route of 20.02 km — `_create_fallback_routes`
never consults `max_distance` (and the OR-Tools path caps the cumulative
distance at the route *start*, where it is pinned to zero).  This theorem
runs the full solver on that request and exhibits the violating route. -/
theorem fallback_exceeds_max_distance :
    ∃ v ∈ shortRangeVehicle,
      ∃ r ∈ (solveFallback distTen farCustomer shortRangeVehicle 1).1.routes,
        r.vehicle_id = v.id ∧ 0 < v.max_distance ∧ v.max_distance < r.total_distance := by
  norm_num [solveFallback, solveDays, dayStep, getCustomersNeedingDelivery, urgent,
    initialInventory, findCust, createFallbackRoutes, fallbackGo, buildRoute, buildRouteGo,
    scanBest, vehicleRouteResult, tourDistM, mkStops, mkStopsGo, roundTo2_eq, commitStops,
    consumeDemand, updateInv, distTen, farCustomer, shortRangeVehicle, List.insertionSort,
    List.orderedInsert, keyLE, sortKey]

/-- C3 fails on the code as stated: two equally urgent customers with equal
priority and demand rate, ids 5 and 3 in that request order, are returned in
request order [5, 3] — Python's stable sort keeps ties in insertion order of
the customer dict, it does not re-order them by ascending customer id. -/
theorem selector_tiebreak_not_id_order :
    getCustomersNeedingDelivery tieCustomers (initialInventory tieCustomers) = [5, 3] ∧
      getCustomersNeedingDelivery tieCustomers (initialInventory tieCustomers) ≠ [3, 5] := by
  have h : getCustomersNeedingDelivery tieCustomers (initialInventory tieCustomers) = [5, 3] := by
    norm_num [getCustomersNeedingDelivery, urgent, initialInventory, findCust, keyLE,
      sortKey, tieCustomers, List.insertionSort, List.orderedInsert]
  refine ⟨h, ?_⟩
  rw [h]
  decide

/-- C6 fails on the code as stated: a customer whose deliverable gap is
0.004 (positive, so the fallback builder does serve it) receives a stop whose
*reported* quantity `round(0.004, 2) = 0.0` is not strictly positive. -/
theorem fallback_zero_quantity_stop :
    ∃ r ∈ (solveFallback distTen tinyGapCustomers smallVehicle 1).1.routes,
      ∃ s ∈ r.stops, ¬0 < s.quantity := by
  norm_num [solveFallback, solveDays, dayStep, getCustomersNeedingDelivery, urgent,
    initialInventory, findCust, createFallbackRoutes, fallbackGo, buildRoute, buildRouteGo,
    scanBest, vehicleRouteResult, tourDistM, mkStops, mkStopsGo, roundTo2_eq, commitStops,
    consumeDemand, updateInv, distTen, tinyGapCustomers, smallVehicle, List.insertionSort,
    List.orderedInsert, keyLE, sortKey]

/-- C8 fails on the code as stated: a customer that starts with 1000 units on
hand against a maximum of 10 (the data model bounds only `current_inventory ≥ 0`
and `min < max`) is selected as urgent, receives no delivery, and after the
day's delivery commit its inventory is still 1000 > max_inventory; the day
genuinely plans a route (customer 2 is served). -/
theorem inventory_commit_exceeds_max :
    (∀ c ∈ overstockCustomers,
        0 ≤ c.current_inventory ∧ c.min_inventory < c.max_inventory ∧ 0 ≤ c.demand_rate) ∧
      (dayStep distTen overstockCustomers midVehicle 0
          (initialInventory overstockCustomers)).routes ≠ [] ∧
      ∃ c ∈ overstockCustomers,
        c.max_inventory <
          (dayStep distTen overstockCustomers midVehicle 0
            (initialInventory overstockCustomers)).invAfterCommit c.id := by
  refine ⟨by norm_num [overstockCustomers], ?_, ?_⟩ <;>
    norm_num [dayStep, getCustomersNeedingDelivery, urgent, initialInventory, findCust,
      createFallbackRoutes, fallbackGo, buildRoute, buildRouteGo, scanBest,
      vehicleRouteResult, tourDistM, mkStops, mkStopsGo, roundTo2_eq, commitStops,
      consumeDemand, updateInv, distTen, overstockCustomers, midVehicle,
      List.insertionSort, List.orderedInsert, keyLE, sortKey, List.cons_ne_nil]


/-- C3 amended: the selector returns exactly the customers satisfying the
urgency rule, ordered ascending by the key `(-priority, -demand_rate)`;
remaining ties are broken by position in the request's customer list
(Python's `list.sort` is stable), not by customer_id ascending: the output is
a permutation of the urgent sublist, is sorted by the key order, a customer
id is returned iff some customer of the request carries it and is urgent, and
any key-ordered pair of the urgent sublist keeps its relative order. -/
theorem selector_spec (customers : List CustomerData) (inv : Inventory) :
    List.Perm (getCustomersNeedingDelivery customers inv)
        ((customers.filter (urgent inv)).map (fun c => c.id)) ∧
      (getCustomersNeedingDelivery customers inv).Sorted (keyLE customers) ∧
      (∀ cid, cid ∈ getCustomersNeedingDelivery customers inv ↔
        ∃ c ∈ customers, c.id = cid ∧ urgent inv c = true) ∧
      ∀ a b, keyLE customers a b →
        [a, b].Sublist ((customers.filter (urgent inv)).map (fun c => c.id)) →
        [a, b].Sublist (getCustomersNeedingDelivery customers inv) := by
  refine ⟨List.perm_insertionSort _ _, List.sorted_insertionSort _ _, ?_, ?_⟩
  · intro cid
    rw [getCustomersNeedingDelivery, List.mem_insertionSort, List.mem_map]
    constructor
    · rintro ⟨c, hc, rfl⟩
      rw [List.mem_filter] at hc
      exact ⟨c, hc.1, rfl, hc.2⟩
    · rintro ⟨c, hc, rfl, hu⟩
      exact ⟨c, List.mem_filter.mpr ⟨hc, hu⟩, rfl⟩
  · intro a b hab hsub
    exact List.pair_sublist_insertionSort hab hsub

theorem selector_spec_witness :
    keyLE tieCustomers 5 3 ∧
      [5, 3].Sublist ((tieCustomers.filter
        (urgent (initialInventory tieCustomers))).map (fun c => c.id)) ∧
      [5, 3].Sublist (getCustomersNeedingDelivery tieCustomers (initialInventory tieCustomers)) ∧
      (5 ∈ getCustomersNeedingDelivery tieCustomers (initialInventory tieCustomers) ↔
        ∃ c ∈ tieCustomers, c.id = 5 ∧ urgent (initialInventory tieCustomers) c = true) := by
  have hk : keyLE tieCustomers 5 3 := by
    norm_num [keyLE, sortKey, findCust, tieCustomers]
  have hf : ((tieCustomers.filter
      (urgent (initialInventory tieCustomers))).map (fun c => c.id)) = [5, 3] := by
    norm_num [tieCustomers, urgent, initialInventory, findCust]
  have hs : [5, 3].Sublist ((tieCustomers.filter
      (urgent (initialInventory tieCustomers))).map (fun c => c.id)) := by
    rw [hf]
  have h := selector_spec tieCustomers (initialInventory tieCustomers)
  exact ⟨hk, hs, h.2.2.2 5 3 hk hs, h.2.2.1 5⟩


theorem reverseSegment_perm (l : List Nat) (a b : Nat) (h : a ≤ b + 1) :
    List.Perm (reverseSegment l a b) l := by
  have hd : (l.drop a).drop (b + 1 - a) = l.drop (b + 1) := by
    rw [List.drop_drop]
    congr 1
    omega
  rw [reverseSegment, List.append_assoc]
  conv_rhs => rw [← List.take_append_drop a l]
  apply List.Perm.append_left
  rw [← hd]
  conv_rhs => rw [← List.take_append_drop (b + 1 - a) (l.drop a)]
  exact List.Perm.append_right _ (List.reverse_perm _)

theorem mem_twoOptCandidates {l t : List Nat} (h : t ∈ twoOptCandidates l) :
    ∃ a b, a < b ∧ t = reverseSegment l a b := by
  rw [twoOptCandidates, List.mem_flatMap] at h
  obtain ⟨a, _, h⟩ := h
  rw [List.mem_filterMap] at h
  obtain ⟨b, _, h⟩ := h
  by_cases hab : a < b
  · rw [if_pos hab] at h
    exact ⟨a, b, hab, (Option.some_inj.mp h).symm⟩
  · rw [if_neg hab] at h
    cases h

theorem findImprovement_some {dist : Nat → Nat → Nat} {l t : List Nat}
    (h : findImprovement dist l = some t) :
    (∃ a b, a < b ∧ t = reverseSegment l a b) ∧
      tourDistM dist 0 t < tourDistM dist 0 l := by
  rw [findImprovement] at h
  have hm := List.mem_of_find?_eq_some h
  have hp := List.find?_some h
  rw [decide_eq_true_eq] at hp
  exact ⟨mem_twoOptCandidates hm, hp⟩

theorem twoOptGo_perm_le (dist : Nat → Nat → Nat) :
    ∀ (fuel : Nat) (l : List Nat),
      List.Perm (twoOptGo dist fuel l) l ∧
        tourDistM dist 0 (twoOptGo dist fuel l) ≤ tourDistM dist 0 l
  | 0, l => ⟨List.Perm.refl l, le_refl _⟩
  | fuel + 1, l => by
    rw [twoOptGo]
    cases hfi : findImprovement dist l with
    | none => exact ⟨List.Perm.refl l, le_refl _⟩
    | some t =>
      obtain ⟨⟨a, b, hab, rfl⟩, hlt⟩ := findImprovement_some hfi
      obtain ⟨hp, hle⟩ := twoOptGo_perm_le dist fuel (reverseSegment l a b)
      exact ⟨hp.trans (reverseSegment_perm l a b (by omega)), le_trans hle (le_of_lt hlt)⟩

/-- C4: the 2-opt route improver (modelled from the spec, §4.6; the source
delegates intra-day route improvement to the external OR-Tools local search)
returns a permutation of the input tour whose closed depot-to-depot distance
is at most the input's, and it leaves delivery quantities untouched: any
per-customer quantity assignment sums identically over the improved tour. -/
theorem twoOpt_improver_sound (dist : Nat → Nat → Nat) (tour : List Nat) :
    List.Perm (twoOpt dist tour) tour ∧
      tourDistM dist 0 (twoOpt dist tour) ≤ tourDistM dist 0 tour ∧
      ∀ q : Nat → ℚ, ((twoOpt dist tour).map q).sum = (tour.map q).sum := by
  obtain ⟨hp, hle⟩ := twoOptGo_perm_le dist (tourDistM dist 0 tour) tour
  exact ⟨hp, hle, fun q => List.Perm.sum_eq (hp.map q)⟩


/-! ### Dict-lookup lemmas -/

theorem foldl_findCust_eq (cid : Nat) :
    ∀ (customers : List CustomerData) (acc : Option CustomerData),
      customers.foldl (fun a c => if c.id = cid then some c else a) acc = acc ∨
        ∃ c ∈ customers, c.id = cid ∧
          customers.foldl (fun a c => if c.id = cid then some c else a) acc = some c
  | [], acc => Or.inl rfl
  | d :: cs, acc => by
    rw [List.foldl_cons]
    rcases foldl_findCust_eq cid cs (if d.id = cid then some d else acc) with h | ⟨c, hc, hcid, h⟩
    · by_cases hd : d.id = cid
      · exact Or.inr ⟨d, List.mem_cons_self d cs, hd, by rw [h, if_pos hd]⟩
      · exact Or.inl (by rw [h, if_neg hd])
    · exact Or.inr ⟨c, List.mem_cons_of_mem d hc, hcid, h⟩

theorem findCust_mem {customers : List CustomerData} {cid : Nat} {c : CustomerData}
    (h : findCust customers cid = some c) : c ∈ customers ∧ c.id = cid := by
  rw [findCust] at h
  rcases foldl_findCust_eq cid customers none with h2 | ⟨c2, hc2, hcid2, h2⟩
  · rw [h2] at h
    cases h
  · rw [h2] at h
    injection h with he
    subst he
    exact ⟨hc2, hcid2⟩

theorem foldl_findCust_notin (cid : Nat) :
    ∀ (customers : List CustomerData) (acc : Option CustomerData),
      (∀ c ∈ customers, c.id ≠ cid) →
      customers.foldl (fun a c => if c.id = cid then some c else a) acc = acc
  | [], _, _ => rfl
  | d :: cs, acc, h => by
    rw [List.foldl_cons, if_neg (h d (List.mem_cons_self d cs)),
      foldl_findCust_notin cid cs acc fun c hc => h c (List.mem_cons_of_mem d hc)]

theorem findCust_self :
    ∀ {customers : List CustomerData} {c : CustomerData},
      (customers.map (fun x => x.id)).Nodup → c ∈ customers → findCust customers c.id = some c := by
  intro customers
  induction customers with
  | nil => intro c _ hc; cases hc
  | cons d cs ih =>
    intro c hnd hc
    rw [List.map_cons, List.nodup_cons] at hnd
    rcases List.mem_cons.mp hc with rfl | hc2
    · rw [findCust, List.foldl_cons, if_pos rfl]
      refine foldl_findCust_notin c.id cs (some c) fun c2 hc2 he => hnd.1 ?_
      rw [← he]
      exact List.mem_map_of_mem (fun x => x.id) hc2
    · have hne : d.id ≠ c.id := fun he => hnd.1 (he ▸ List.mem_map_of_mem (fun x => x.id) hc2)
      rw [findCust, List.foldl_cons, if_neg hne]
      exact ih hnd.2 hc2

/-! ### Stop-assembly lemmas -/

theorem mkStopsGo_pairs (dist : Nat → Nat → Nat) :
    ∀ (pairs : List (Nat × ℚ)) (prev seq : Nat) (clock : ℚ),
      (mkStopsGo dist prev seq clock pairs).map (fun s => (s.customer_id, s.quantity)) =
        pairs.map fun p => (p.1, roundTo2 p.2)
  | [], _, _, _ => rfl
  | (cid, q) :: rest, prev, seq, clock => by
    rw [mkStopsGo, List.map_cons, List.map_cons, mkStopsGo_pairs dist rest]

theorem mkStopsGo_cids (dist : Nat → Nat → Nat) :
    ∀ (pairs : List (Nat × ℚ)) (prev seq : Nat) (clock : ℚ),
      (mkStopsGo dist prev seq clock pairs).map (fun s => s.customer_id) = pairs.map Prod.fst
  | [], _, _, _ => rfl
  | (cid, q) :: rest, prev, seq, clock => by
    rw [mkStopsGo, List.map_cons, List.map_cons, mkStopsGo_cids dist rest]

theorem mkStops_pairs (dist : Nat → Nat → Nat) (pairs : List (Nat × ℚ)) :
    (mkStops dist pairs).map (fun s => (s.customer_id, s.quantity)) =
      pairs.map fun p => (p.1, roundTo2 p.2) :=
  mkStopsGo_pairs dist pairs 0 1 480

theorem mkStops_cids (dist : Nat → Nat → Nat) (pairs : List (Nat × ℚ)) :
    (mkStops dist pairs).map (fun s => s.customer_id) = pairs.map Prod.fst :=
  mkStopsGo_cids dist pairs 0 1 480

/-! ### Candidate-scan and route-builder lemmas -/

theorem scanBest_fold_spec (dist : Nat → Nat → Nat) (customers : List CustomerData)
    (inv : Inventory) (rc : ℚ) (current : Nat) :
    ∀ (un : List Nat) (acc : Option (Nat × Nat)) (p : Nat × Nat),
      un.foldl
        (fun best cid =>
          match findCust customers cid with
          | none => best
          | some c =>
            let q := min (min (c.max_inventory - inv cid) rc) c.max_inventory
            if q ≤ 0 then best
            else
              match best with
              | none => some (cid, dist current cid)
              | some p =>
                if dist current cid < p.2 then some (cid, dist current cid) else best)
        acc = some p →
      acc = some p ∨
        p.1 ∈ un ∧ ∃ c, findCust customers p.1 = some c ∧
          0 < min (min (c.max_inventory - inv p.1) rc) c.max_inventory
  | [], acc, p, h => Or.inl h
  | cid :: rest, acc, p, h => by
    rw [List.foldl_cons] at h
    rcases scanBest_fold_spec dist customers inv rc current rest _ p h with h2 | ⟨hm, hc⟩
    · cases hfc : findCust customers cid with
      | none =>
        rw [hfc] at h2
        exact Or.inl h2
      | some c =>
        rw [hfc] at h2
        dsimp only at h2
        by_cases hq : min (min (c.max_inventory - inv cid) rc) c.max_inventory ≤ 0
        · rw [if_pos hq] at h2
          exact Or.inl h2
        · rw [if_neg hq] at h2
          cases acc with
          | none =>
            injection h2 with he
            subst he
            exact Or.inr ⟨List.mem_cons_self cid rest, c, hfc, lt_of_not_le hq⟩
          | some p0 =>
            dsimp only at h2
            by_cases hd : dist current cid < p0.2
            · rw [if_pos hd] at h2
              injection h2 with he
              subst he
              exact Or.inr ⟨List.mem_cons_self cid rest, c, hfc, lt_of_not_le hq⟩
            · rw [if_neg hd] at h2
              exact Or.inl h2
    · exact Or.inr ⟨List.mem_cons_of_mem cid hm, hc⟩

theorem scanBest_spec {dist : Nat → Nat → Nat} {customers : List CustomerData}
    {inv : Inventory} {rc : ℚ} {current : Nat} {un : List Nat} {best : Nat}
    (h : scanBest dist customers inv rc current un = some best) :
    best ∈ un ∧ ∃ c, findCust customers best = some c ∧
      0 < min (min (c.max_inventory - inv best) rc) c.max_inventory := by
  rw [scanBest, Option.map_eq_some'] at h
  obtain ⟨p, hp, rfl⟩ := h
  rcases scanBest_fold_spec dist customers inv rc current un none p hp with h2 | h2
  · cases h2
  · exact h2


theorem buildRouteGo_spec (dist : Nat → Nat → Nat) (customers : List CustomerData)
    (inv : Inventory) :
    ∀ (fuel : Nat) (rc : ℚ) (current : Nat) (un : List Nat), un.Nodup →
      (buildRouteGo dist customers inv fuel rc current un).2.Nodup ∧
        (∀ x ∈ (buildRouteGo dist customers inv fuel rc current un).2, x ∈ un) ∧
        ((buildRouteGo dist customers inv fuel rc current un).1.map Prod.fst).Nodup ∧
        ∀ p ∈ (buildRouteGo dist customers inv fuel rc current un).1,
          p.1 ∈ un ∧ p.1 ∉ (buildRouteGo dist customers inv fuel rc current un).2 ∧
            ∃ c, findCust customers p.1 = some c ∧ 0 < p.2 ∧ p.2 ≤ c.max_inventory - inv p.1 := by
  intro fuel
  induction fuel with
  | zero =>
    intro rc current un hnd
    simp only [buildRouteGo]
    exact ⟨hnd, fun x hx => hx, List.nodup_nil, fun p hp => absurd hp (List.not_mem_nil p)⟩
  | succ fuel ih =>
    intro rc current un hnd
    simp only [buildRouteGo]
    by_cases h0 : un = [] ∨ ¬0 < rc
    · rw [if_pos h0]
      exact ⟨hnd, fun x hx => hx, List.nodup_nil, fun p hp => absurd hp (List.not_mem_nil p)⟩
    · rw [if_neg h0]
      cases hsb : scanBest dist customers inv rc current un with
      | none =>
        dsimp only
        exact ⟨hnd, fun x hx => hx, List.nodup_nil, fun p hp => absurd hp (List.not_mem_nil p)⟩
      | some best =>
        dsimp only
        cases hfc : findCust customers best with
        | none =>
          dsimp only
          exact ⟨hnd, fun x hx => hx, List.nodup_nil, fun p hp => absurd hp (List.not_mem_nil p)⟩
        | some c =>
          dsimp only
          obtain ⟨hbu, c2, hfc2, hmin⟩ := scanBest_spec hsb
          rw [hfc] at hfc2
          injection hfc2 with he
          subst he
          rw [lt_min_iff, lt_min_iff] at hmin
          obtain ⟨⟨ha, hrc⟩, hm⟩ := hmin
          obtain ⟨ih1, ih2, ih3, ih4⟩ :=
            ih (rc - min (c.max_inventory - inv best) rc) best (un.erase best) (hnd.erase best)
          refine ⟨ih1, ?_, ?_, ?_⟩
          · intro x hx
            exact List.erase_subset best un (ih2 x hx)
          · rw [List.map_cons, List.nodup_cons]
            refine ⟨fun hmem => ?_, ih3⟩
            rw [List.mem_map] at hmem
            obtain ⟨p, hp, hpe⟩ := hmem
            have hpm := (ih4 p hp).1
            rw [hpe] at hpm
            exact ((List.Nodup.mem_erase_iff hnd).mp hpm).1 rfl
          · intro p hp
            rcases List.mem_cons.mp hp with rfl | hp2
            · refine ⟨hbu, fun hmem => ?_, c, hfc, lt_min ha hrc, min_le_left _ _⟩
              exact ((List.Nodup.mem_erase_iff hnd).mp (ih2 best hmem)).1 rfl
            · obtain ⟨h1, h2, h3⟩ := ih4 p hp2
              exact ⟨List.erase_subset best un h1, h2, h3⟩


/-! ### Commit and consumption lemmas -/

theorem applyPairs_append (p1 p2 : List (Nat × ℚ)) (inv : Inventory) :
    applyPairs (p1 ++ p2) inv = applyPairs p2 (applyPairs p1 inv) := by
  rw [applyPairs, applyPairs, applyPairs, List.foldl_append]

theorem applyPairs_map_stops (stops : List StopResult) (inv : Inventory) :
    applyPairs (stops.map fun s => (s.customer_id, s.quantity)) inv =
      stops.foldl
        (fun acc s => updateInv acc s.customer_id (acc s.customer_id + s.quantity)) inv := by
  rw [applyPairs, List.foldl_map]

theorem commitStops_eq :
    ∀ (routes : List RouteResult) (inv : Inventory),
      commitStops routes inv = applyPairs (stopPairs routes) inv
  | [], _ => rfl
  | r :: rs, inv => by
    have h1 : stopPairs (r :: rs) =
        (r.stops.map fun s => (s.customer_id, s.quantity)) ++ stopPairs rs := by
      rw [stopPairs, List.flatMap_cons]
      rfl
    have h2 : commitStops (r :: rs) inv =
        commitStops rs
          (r.stops.foldl
            (fun acc2 s => updateInv acc2 s.customer_id (acc2 s.customer_id + s.quantity)) inv) := by
      rw [commitStops, commitStops, List.foldl_cons]
    rw [h2, h1, applyPairs_append, applyPairs_map_stops, commitStops_eq rs]

theorem applyPairs_notin :
    ∀ (pairs : List (Nat × ℚ)) (inv : Inventory) (k : Nat),
      k ∉ pairs.map Prod.fst → applyPairs pairs inv k = inv k
  | [], _, _, _ => rfl
  | (k0, q0) :: rest, inv, k, h => by
    rw [List.map_cons, List.mem_cons] at h
    push_neg at h
    rw [applyPairs, List.foldl_cons, ← applyPairs,
      applyPairs_notin rest _ k h.2]
    simp only [updateInv]
    rw [if_neg h.1]

theorem applyPairs_mem :
    ∀ (pairs : List (Nat × ℚ)) (inv : Inventory) (k : Nat) (q : ℚ),
      (pairs.map Prod.fst).Nodup → (k, q) ∈ pairs → applyPairs pairs inv k = inv k + q
  | [], _, _, _, _, h => absurd h (List.not_mem_nil _)
  | (k0, q0) :: rest, inv, k, q, hnd, h => by
    rw [List.map_cons, List.nodup_cons] at hnd
    rw [applyPairs, List.foldl_cons, ← applyPairs]
    rcases List.mem_cons.mp h with he | hrest
    · injection he with he1 he2
      subst he1
      subst he2
      rw [applyPairs_notin rest _ k hnd.1]
      simp only [updateInv]
      simp
    · have hkmem : k ∈ List.map Prod.fst rest := List.mem_map_of_mem Prod.fst hrest
      have hk : k ≠ k0 := fun he => hnd.1 (he ▸ hkmem)
      rw [applyPairs_mem rest _ k q hnd.2 hrest]
      simp only [updateInv]
      rw [if_neg hk]

theorem consumeDemand_notin :
    ∀ (customers : List CustomerData) (inv : Inventory) (k : Nat),
      (∀ c ∈ customers, c.id ≠ k) → consumeDemand customers inv k = inv k
  | [], _, _, _ => rfl
  | d :: cs, inv, k, h => by
    rw [consumeDemand, List.foldl_cons, ← consumeDemand,
      consumeDemand_notin cs _ k fun c hc => h c (List.mem_cons_of_mem d hc)]
    simp only [updateInv]
    rw [if_neg fun he => h d (List.mem_cons_self d cs) he.symm]

theorem consumeDemand_mem :
    ∀ (customers : List CustomerData) (inv : Inventory) (c : CustomerData),
      (customers.map (fun x => x.id)).Nodup → c ∈ customers →
      consumeDemand customers inv c.id = max 0 (inv c.id - c.demand_rate)
  | [], _, _, _, hc => absurd hc (List.not_mem_nil _)
  | d :: cs, inv, c, hnd, hc => by
    rw [List.map_cons, List.nodup_cons] at hnd
    rw [consumeDemand, List.foldl_cons, ← consumeDemand]
    rcases List.mem_cons.mp hc with rfl | hcs
    · rw [consumeDemand_notin cs _ c.id
        fun c2 hc2 he => hnd.1 (he ▸ List.mem_map_of_mem (fun x => x.id) hc2)]
      simp only [updateInv]
      simp
    · have hk : c.id ≠ d.id := fun he => hnd.1 (he ▸ List.mem_map_of_mem (fun x => x.id) hcs)
      rw [consumeDemand_mem cs _ c hnd.2 hcs]
      simp only [updateInv]
      rw [if_neg hk]


theorem map_fst_round_pairs (pairs : List (Nat × ℚ)) :
    ((pairs.map fun p => (p.1, roundTo2 p.2)).map Prod.fst) = pairs.map Prod.fst := by
  rw [List.map_map]
  rfl

theorem fallbackGo_spec (dist : Nat → Nat → Nat) (customers : List CustomerData)
    (inv : Inventory) (day : Nat) :
    ∀ (vehicles : List VehicleData) (un : List Nat), un.Nodup →
      ((stopPairs (fallbackGo dist customers inv day vehicles un)).map Prod.fst).Nodup ∧
        (∀ p ∈ stopPairs (fallbackGo dist customers inv day vehicles un),
          p.1 ∈ un ∧ ∃ c raw, findCust customers p.1 = some c ∧ p.2 = roundTo2 raw ∧
            0 < raw ∧ raw ≤ c.max_inventory - inv p.1) ∧
        ∀ r ∈ fallbackGo dist customers inv day vehicles un,
          ∃ v ∈ vehicles, r.vehicle_id = v.id ∧
            r.total_distance =
              roundTo2 ((tourDistM dist 0 (r.stops.map fun s => s.customer_id) : ℚ) / 1000) ∧
            r.total_cost =
              roundTo2 (v.fixed_cost +
                (tourDistM dist 0 (r.stops.map fun s => s.customer_id) : ℚ) / 1000 *
                  v.cost_per_km)
  | [], un, hnd => by
    refine ⟨?_, ?_, ?_⟩ <;> simp [fallbackGo, stopPairs]
  | v :: vs, un, hnd => by
    rw [fallbackGo]
    by_cases h0 : un = []
    · rw [if_pos h0]
      refine ⟨?_, ?_, ?_⟩ <;> simp [stopPairs]
    · rw [if_neg h0]
      dsimp only
      obtain ⟨hb1, hb2, hb3, hb4⟩ :=
        buildRouteGo_spec dist customers inv un.length v.capacity 0 un hnd
      rw [← buildRoute] at hb1 hb2 hb3 hb4
      obtain ⟨ih1, ih2, ih3⟩ :=
        fallbackGo_spec dist customers inv day vs (buildRoute dist customers inv v un).2 hb1
      by_cases hpe : (buildRoute dist customers inv v un).1 = []
      · rw [vehicleRouteResult, if_pos hpe]
        refine ⟨ih1, ?_, ?_⟩
        · intro p hp
          obtain ⟨hm, hrest⟩ := ih2 p hp
          exact ⟨hb2 p.1 hm, hrest⟩
        · intro r hr
          obtain ⟨v2, hv2, hrest⟩ := ih3 r hr
          exact ⟨v2, List.mem_cons_of_mem v hv2, hrest⟩
      · rw [vehicleRouteResult, if_neg hpe]
        dsimp only
        have hsp : stopPairs
            ({ day := day + 1
               vehicle_id := v.id
               total_distance := roundTo2
                 ((tourDistM dist 0 ((buildRoute dist customers inv v un).1.map Prod.fst) : ℚ) /
                   1000)
               total_cost := roundTo2 (v.fixed_cost +
                 (tourDistM dist 0 ((buildRoute dist customers inv v un).1.map Prod.fst) : ℚ) /
                   1000 * v.cost_per_km)
               total_load := roundTo2 (((buildRoute dist customers inv v un).1.map Prod.snd).sum)
               stops := mkStops dist (buildRoute dist customers inv v un).1 } ::
              fallbackGo dist customers inv day vs (buildRoute dist customers inv v un).2) =
            ((buildRoute dist customers inv v un).1.map fun p => (p.1, roundTo2 p.2)) ++
              stopPairs (fallbackGo dist customers inv day vs
                (buildRoute dist customers inv v un).2) := by
          rw [stopPairs, List.flatMap_cons]
          dsimp only
          rw [mkStops_pairs]
          rfl
        refine ⟨?_, ?_, ?_⟩
        · rw [hsp, List.map_append, List.nodup_append, map_fst_round_pairs]
          refine ⟨hb3, ih1, ?_⟩
          intro a ha ha2
          rw [List.mem_map] at ha ha2
          obtain ⟨p, hp, hpa⟩ := ha
          obtain ⟨p2, hp2, hpa2⟩ := ha2
          have h1 := (hb4 p hp).2.1
          have h2 := (ih2 p2 hp2).1
          rw [hpa] at h1
          rw [hpa2] at h2
          exact h1 (hpa2 ▸ h2)
        · rw [hsp]
          intro p hp
          rcases List.mem_append.mp hp with hp1 | hp2
          · rw [List.mem_map] at hp1
            obtain ⟨p0, hp0, rfl⟩ := hp1
            obtain ⟨hm, _, c, hfc, hq, hle⟩ := hb4 p0 hp0
            exact ⟨hm, c, p0.2, hfc, rfl, hq, hle⟩
          · obtain ⟨hm, hrest⟩ := ih2 p hp2
            exact ⟨hb2 p.1 hm, hrest⟩
        · intro r hr
          rcases List.mem_cons.mp hr with rfl | hr2
          · refine ⟨v, List.mem_cons_self v vs, rfl, ?_, ?_⟩ <;>
              · dsimp only
                rw [mkStops_cids]
          · obtain ⟨v2, hv2, hrest⟩ := ih3 r hr2
            exact ⟨v2, List.mem_cons_of_mem v hv2, hrest⟩


theorem getCustomersNeedingDelivery_nodup (customers : List CustomerData) (inv : Inventory)
    (hnd : (customers.map (fun x => x.id)).Nodup) :
    (getCustomersNeedingDelivery customers inv).Nodup := by
  have hsub : ((customers.filter (urgent inv)).map fun c => c.id).Sublist
      (customers.map fun x => x.id) := (List.filter_sublist _).map _
  exact ((List.perm_insertionSort (keyLE customers) _).nodup_iff).mpr (hsub.nodup hnd)

/-- C6 amended: on the repository's own routing path
(`_create_fallback_routes`) every emitted stop arises from a strictly
positive pre-rounding delivery quantity — in particular a customer whose
deliverable gap `max_inventory - inventory` is ≤ 0 at the moment of
consideration never produces a stop — and the reported two-decimal-rounded
quantity is nonnegative (it can round down to 0.0 when the raw quantity is
below 0.005, which is why strict positivity fails for the reported value). -/
theorem fallback_stop_quantities (dist : Nat → Nat → Nat) (customers : List CustomerData)
    (vehicles : List VehicleData) (inv : Inventory) (day : Nat) (ctv : List Nat)
    (hnd : ctv.Nodup) :
    ∀ r ∈ createFallbackRoutes dist customers vehicles inv day ctv,
      ∀ s ∈ r.stops,
        0 ≤ s.quantity ∧
          ∃ c raw, findCust customers s.customer_id = some c ∧
            0 < c.max_inventory - inv s.customer_id ∧
            0 < raw ∧ s.quantity = roundTo2 raw := by
  intro r hr s hs
  rw [createFallbackRoutes] at hr
  have hp : (s.customer_id, s.quantity) ∈
      stopPairs (fallbackGo dist customers inv day vehicles ctv) := by
    rw [stopPairs, List.mem_flatMap]
    exact ⟨r, hr, List.mem_map_of_mem _ hs⟩
  obtain ⟨_, hmem, _⟩ := fallbackGo_spec dist customers inv day vehicles ctv hnd
  obtain ⟨_, c, raw, hfc, hq, hraw, hle⟩ := hmem _ hp
  dsimp only at hfc hq hle
  exact ⟨hq ▸ roundTo2_nonneg hraw.le, c, raw, hfc, lt_of_lt_of_le hraw hle, hraw, hq⟩

theorem fallback_stop_quantities_witness :
    ∃ r ∈ createFallbackRoutes distTen farCustomer shortRangeVehicle
        (initialInventory farCustomer) 0 [1],
      ∃ s ∈ r.stops,
        0 ≤ s.quantity ∧
          ∃ c raw, findCust farCustomer s.customer_id = some c ∧
            0 < c.max_inventory - initialInventory farCustomer s.customer_id ∧
            0 < raw ∧ s.quantity = roundTo2 raw := by
  have hex : ∃ r ∈ createFallbackRoutes distTen farCustomer shortRangeVehicle
      (initialInventory farCustomer) 0 [1], ∃ s ∈ r.stops, s.customer_id = 1 := by
    norm_num [createFallbackRoutes, fallbackGo, buildRoute, buildRouteGo, scanBest,
      vehicleRouteResult, tourDistM, mkStops, mkStopsGo, roundTo2_eq, initialInventory,
      findCust, distTen, farCustomer, shortRangeVehicle, List.cons_ne_nil]
  obtain ⟨r, hr, s, hs, _⟩ := hex
  exact ⟨r, hr, s, hs,
    fallback_stop_quantities distTen farCustomer shortRangeVehicle
      (initialInventory farCustomer) 0 [1] (by decide) r hr s hs⟩


theorem roundTo2_cost_close {F D k : ℚ} (hk : 0 ≤ k) :
    |roundTo2 (F + D * k) - (F + roundTo2 D * k)| ≤ (1 + k) / 200 := by
  have h1 := abs_roundTo2_sub_le (F + D * k)
  have h2 := abs_roundTo2_sub_le D
  have he : roundTo2 (F + D * k) - (F + roundTo2 D * k) =
      (roundTo2 (F + D * k) - (F + D * k)) + (D - roundTo2 D) * k := by ring
  rw [he]
  calc |(roundTo2 (F + D * k) - (F + D * k)) + (D - roundTo2 D) * k|
      ≤ |roundTo2 (F + D * k) - (F + D * k)| + |(D - roundTo2 D) * k| := abs_add _ _
    _ ≤ 1 / 200 + |D - roundTo2 D| * k := by
        rw [abs_mul, abs_of_nonneg hk]
        exact add_le_add h1 (le_refl _)
    _ ≤ 1 / 200 + 1 / 200 * k := by
        have h3 : |D - roundTo2 D| ≤ 1 / 200 := by
          rw [abs_sub_comm]
          exact h2
        exact add_le_add (le_refl _) (mul_le_mul_of_nonneg_right h3 hk)
    _ = (1 + k) / 200 := by ring

theorem extractRoutes_mem {dist : Nat → Nat → Nat} {customers : List CustomerData}
    {inv : Inventory} {day : Nat} {vehicles : List VehicleData} {sol : List (List Nat)}
    {r : RouteResult} (hr : r ∈ extractRoutes dist customers inv day vehicles sol) :
    ∃ v ∈ vehicles, ∃ seq, seq ≠ [] ∧
      extractVehicleRoute dist customers inv v day seq = some r := by
  rw [extractRoutes, List.mem_filterMap] at hr
  obtain ⟨p, hp, he⟩ := hr
  have hv := List.of_mem_zip hp
  refine ⟨p.1, hv.1, p.2, ?_, he⟩
  intro hnil
  rw [extractVehicleRoute, if_pos hnil] at he
  cases he

/-- C7: for every emitted route, the reported `total_cost` is the rounding of
`fixed_cost + D × cost_per_km` where `D` is the same pre-rounding distance
whose rounding is the reported `total_distance`; on the fallback path `D` is
the closed tour over the route's stops including the final return leg, and on
the OR-Tools extraction path `D` is that closed tour plus the return leg a
second time (lines 365-372 re-add it).  Consequently
`total_cost` matches `fixed_cost + total_distance × cost_per_km` within the
rounding tolerance `(1 + cost_per_km)/200` whenever `cost_per_km ≥ 0`. -/
theorem route_cost_law (dist : Nat → Nat → Nat) (customers : List CustomerData)
    (vehicles : List VehicleData) (inv : Inventory) (day : Nat) (ctv : List Nat)
    (sol : List (List Nat)) (hnd : ctv.Nodup) :
    (∀ r ∈ createFallbackRoutes dist customers vehicles inv day ctv,
      ∃ v ∈ vehicles, r.vehicle_id = v.id ∧
        r.total_distance =
          roundTo2 ((tourDistM dist 0 (r.stops.map fun s => s.customer_id) : ℚ) / 1000) ∧
        r.total_cost =
          roundTo2 (v.fixed_cost +
            (tourDistM dist 0 (r.stops.map fun s => s.customer_id) : ℚ) / 1000 *
              v.cost_per_km) ∧
        (0 ≤ v.cost_per_km →
          |r.total_cost - (v.fixed_cost + r.total_distance * v.cost_per_km)| ≤
            (1 + v.cost_per_km) / 200)) ∧
      ∀ r ∈ extractRoutes dist customers inv day vehicles sol,
        ∃ v ∈ vehicles, r.vehicle_id = v.id ∧
          ∃ D, D = (tourDistM dist 0 (r.stops.map fun s => s.customer_id) : ℚ) / 1000 +
              (dist ((r.stops.map fun s => s.customer_id).getLastD 0) 0 : ℚ) / 1000 ∧
            r.total_distance = roundTo2 D ∧
            r.total_cost = roundTo2 (v.fixed_cost + D * v.cost_per_km) ∧
            (0 ≤ v.cost_per_km →
              |r.total_cost - (v.fixed_cost + r.total_distance * v.cost_per_km)| ≤
                (1 + v.cost_per_km) / 200) := by
  constructor
  · intro r hr
    rw [createFallbackRoutes] at hr
    obtain ⟨_, _, hroutes⟩ := fallbackGo_spec dist customers inv day vehicles ctv hnd
    obtain ⟨v, hv, hid, hdist, hcost⟩ := hroutes r hr
    refine ⟨v, hv, hid, hdist, hcost, fun hk => ?_⟩
    rw [hdist, hcost]
    exact roundTo2_cost_close hk
  · intro r hr
    obtain ⟨v, hv, seq, hne, he⟩ := extractRoutes_mem hr
    rw [extractVehicleRoute, if_neg hne] at he
    injection he with he2
    subst he2
    have hcids : ((seq.map fun cid => (cid, extractionQty customers inv cid)).map Prod.fst) =
        seq := by
      rw [List.map_map]
      exact List.map_id seq
    refine ⟨v, hv, rfl, ?_⟩
    dsimp only
    rw [mkStops_cids, hcids]
    refine ⟨_, rfl, rfl, rfl, fun hk => ?_⟩
    exact roundTo2_cost_close hk

theorem route_cost_law_witness :
    ∃ r ∈ createFallbackRoutes distTen farCustomer shortRangeVehicle
        (initialInventory farCustomer) 0 [1],
      ∃ v ∈ shortRangeVehicle, r.vehicle_id = v.id ∧
        |r.total_cost - (v.fixed_cost + r.total_distance * v.cost_per_km)| ≤
          (1 + v.cost_per_km) / 200 := by
  have hex : ∃ r ∈ createFallbackRoutes distTen farCustomer shortRangeVehicle
      (initialInventory farCustomer) 0 [1], r.vehicle_id = 1 := by
    norm_num [createFallbackRoutes, fallbackGo, buildRoute, buildRouteGo, scanBest,
      vehicleRouteResult, tourDistM, mkStops, mkStopsGo, roundTo2_eq, initialInventory,
      findCust, distTen, farCustomer, shortRangeVehicle, List.cons_ne_nil]
  obtain ⟨r, hr, _⟩ := hex
  obtain ⟨v, hv, hid, _, _, habs⟩ :=
    (route_cost_law distTen farCustomer shortRangeVehicle (initialInventory farCustomer) 0
      [1] [[1]] (by decide)).1 r hr
  refine ⟨r, hr, v, hv, hid, habs ?_⟩
  simp only [shortRangeVehicle, List.mem_singleton] at hv
  subst hv
  norm_num


theorem dayStep_bounds (dist : Nat → Nat → Nat) (customers : List CustomerData)
    (vehicles : List VehicleData) (day : Nat) (inv : Inventory)
    (hnd : (customers.map fun x => x.id).Nodup)
    (hdr : ∀ c ∈ customers, 0 ≤ c.demand_rate)
    (hpre : ∀ c ∈ customers,
      0 ≤ inv c.id ∧ inv c.id ≤ max (c.max_inventory + 1 / 200) c.current_inventory) :
    ∀ c ∈ customers,
      (0 ≤ (dayStep dist customers vehicles day inv).invAfterCommit c.id ∧
        (dayStep dist customers vehicles day inv).invAfterCommit c.id ≤
          max (c.max_inventory + 1 / 200) c.current_inventory) ∧
      0 ≤ (dayStep dist customers vehicles day inv).invAfterConsume c.id ∧
        (dayStep dist customers vehicles day inv).invAfterConsume c.id ≤
          max (c.max_inventory + 1 / 200) c.current_inventory := by
  intro c hc
  obtain ⟨hpre1, hpre2⟩ := hpre c hc
  have hB0 : (0 : ℚ) ≤ max (c.max_inventory + 1 / 200) c.current_inventory :=
    le_trans hpre1 hpre2
  rw [dayStep]
  by_cases h0 : getCustomersNeedingDelivery customers inv = []
  · rw [if_pos h0]
    dsimp only
    rw [consumeDemand_mem customers inv c hnd hc]
    refine ⟨⟨hpre1, hpre2⟩, le_max_left 0 _, max_le hB0 ?_⟩
    have hd := hdr c hc
    linarith
  · rw [if_neg h0]
    dsimp only
    have hctvnd := getCustomersNeedingDelivery_nodup customers inv hnd
    obtain ⟨hkeys, hpairs, _⟩ := fallbackGo_spec dist customers inv day vehicles
      (getCustomersNeedingDelivery customers inv) hctvnd
    have hcommit : commitStops (createFallbackRoutes dist customers vehicles inv day
        (getCustomersNeedingDelivery customers inv)) inv =
        applyPairs (stopPairs (fallbackGo dist customers inv day vehicles
          (getCustomersNeedingDelivery customers inv))) inv := by
      rw [commitStops_eq, createFallbackRoutes]
    have hcb : 0 ≤ commitStops (createFallbackRoutes dist customers vehicles inv day
        (getCustomersNeedingDelivery customers inv)) inv c.id ∧
        commitStops (createFallbackRoutes dist customers vehicles inv day
          (getCustomersNeedingDelivery customers inv)) inv c.id ≤
          max (c.max_inventory + 1 / 200) c.current_inventory := by
      rw [hcommit]
      by_cases hk : c.id ∈ (stopPairs (fallbackGo dist customers inv day vehicles
          (getCustomersNeedingDelivery customers inv))).map Prod.fst
      · obtain ⟨p, hp, hpid⟩ := List.mem_map.mp hk
        have hval := applyPairs_mem _ inv p.1 p.2 hkeys (by rw [Prod.mk.eta]; exact hp)
        obtain ⟨_, c2, raw, hfc, hq, hraw, hle⟩ := hpairs p hp
        have hc2 : c2 = c := by
          obtain ⟨hm2, hid2⟩ := findCust_mem hfc
          exact List.inj_on_of_nodup_map hnd hm2 hc (by rw [hid2, hpid])
        subst hc2
        rw [hpid] at hval hle
        rw [hval]
        have hq1 : 0 ≤ p.2 := hq ▸ roundTo2_nonneg hraw.le
        have hq2 : p.2 ≤ raw + 1 / 200 := hq ▸ roundTo2_le raw
        constructor
        · linarith
        · refine le_trans ?_ (le_max_left _ _)
          linarith
      · rw [applyPairs_notin _ _ _ hk]
        exact ⟨hpre1, hpre2⟩
    refine ⟨hcb, ?_⟩
    rw [consumeDemand_mem customers _ c hnd hc]
    refine ⟨le_max_left 0 _, max_le hB0 ?_⟩
    have hd := hdr c hc
    linarith [hcb.2]

theorem solveDays_bounds (dist : Nat → Nat → Nat) (customers : List CustomerData)
    (vehicles : List VehicleData)
    (hnd : (customers.map fun x => x.id).Nodup)
    (hdr : ∀ c ∈ customers, 0 ≤ c.demand_rate) :
    ∀ (horizon day0 : Nat) (inv : Inventory),
      (∀ c ∈ customers,
        0 ≤ inv c.id ∧ inv c.id ≤ max (c.max_inventory + 1 / 200) c.current_inventory) →
      ∀ o ∈ solveDays dist customers vehicles horizon day0 inv, ∀ c ∈ customers,
        0 ≤ o.invAfterCommit c.id ∧
          o.invAfterCommit c.id ≤ max (c.max_inventory + 1 / 200) c.current_inventory ∧
          0 ≤ o.invAfterConsume c.id := by
  intro horizon
  induction horizon with
  | zero =>
    intro day0 inv _ o ho
    exact absurd ho (List.not_mem_nil o)
  | succ h ih =>
    intro day0 inv hpre o ho
    rw [solveDays] at ho
    rcases List.mem_cons.mp ho with rfl | ho2
    · intro c hc
      obtain ⟨⟨h1, h2⟩, h3, _⟩ := dayStep_bounds dist customers vehicles day0 inv hnd hdr hpre c hc
      exact ⟨h1, h2, h3⟩
    · exact ih (day0 + 1) _
        (fun c2 hc2 => (dayStep_bounds dist customers vehicles day0 inv hnd hdr hpre c2 hc2).2)
        o ho2

/-- C8 amended: for every request whose customers have distinct ids,
nonnegative initial inventory and nonnegative demand rates, at the end of
every planned day: after the day's deliveries are committed,
`0 ≤ inventory[c] ≤ max (max_inventory[c] + 0.005) current_inventory[c]`
(the 0.005 because stop quantities are rounded to two decimals before the
commit; the `current_inventory` term because an initial stock above the
maximum is never drawn down by the planner, only by demand), and after
demand consumption the inventory is nonnegative. -/
theorem inventory_invariants (dist : Nat → Nat → Nat) (customers : List CustomerData)
    (vehicles : List VehicleData) (horizon : Nat)
    (hnd : (customers.map fun x => x.id).Nodup)
    (hcur : ∀ c ∈ customers, 0 ≤ c.current_inventory)
    (hdr : ∀ c ∈ customers, 0 ≤ c.demand_rate) :
    ∀ o ∈ solveDays dist customers vehicles horizon 0 (initialInventory customers),
      ∀ c ∈ customers,
        0 ≤ o.invAfterCommit c.id ∧
          o.invAfterCommit c.id ≤ max (c.max_inventory + 1 / 200) c.current_inventory ∧
          0 ≤ o.invAfterConsume c.id := by
  apply solveDays_bounds dist customers vehicles hnd hdr horizon 0
  intro c hc
  have hinit : initialInventory customers c.id = c.current_inventory := by
    simp only [initialInventory, findCust_self hnd hc]
  rw [hinit]
  exact ⟨hcur c hc, le_max_right _ _⟩

theorem inventory_invariants_witness :
    ∃ o ∈ solveDays distTen overstockCustomers midVehicle 1 0
        (initialInventory overstockCustomers),
      ∀ c ∈ overstockCustomers,
        0 ≤ o.invAfterCommit c.id ∧
          o.invAfterCommit c.id ≤ max (c.max_inventory + 1 / 200) c.current_inventory ∧
          0 ≤ o.invAfterConsume c.id := by
  refine ⟨dayStep distTen overstockCustomers midVehicle 0 (initialInventory overstockCustomers),
    ?_, ?_⟩
  · rw [solveDays]
    exact List.mem_cons_self _ _
  · exact inventory_invariants distTen overstockCustomers midVehicle 1
      (by norm_num [overstockCustomers]) (by norm_num [overstockCustomers])
      (by norm_num [overstockCustomers]) _ (by rw [solveDays]; exact List.mem_cons_self _ _)


theorem buildLocations_preserve :
    ∀ (post : List CustomerData) (acc : Nat → Option (ℚ × ℚ)) (k : Nat),
      (∀ c ∈ post, c.id ≠ k) →
      post.foldl
        (fun acc c => fun m => if m = c.id then some (c.latitude, c.longitude) else acc m)
        acc k = acc k
  | [], _, _, _ => rfl
  | d :: cs, acc, k, h => by
    rw [List.foldl_cons,
      buildLocations_preserve cs _ k fun c2 hc2 => h c2 (List.mem_cons_of_mem d hc2)]
    rw [if_neg fun he => h d (List.mem_cons_self d cs) he.symm]

/-- C9: the solver keys the depot as location 0 in the same map as customer
locations (`_build_locations`, solver.py lines 68-73): for any request
containing a customer with id 0 (and no later duplicate of that id), the
location stored under key 0 is that customer's coordinates — they silently
replace the warehouse's — and consequently every depot-relative entry of the
distance matrix is computed from the customer's position. -/
theorem customer_zero_replaces_depot (w : WarehouseData) (pre post : List CustomerData)
    (c : CustomerData) (hav : ℚ × ℚ → ℚ × ℚ → ℚ) (hzero : c.id = 0)
    (hpost : ∀ c2 ∈ post, c2.id ≠ 0) :
    buildLocations w (pre ++ c :: post) 0 = some (c.latitude, c.longitude) ∧
      ∀ j b, j ≠ 0 → buildLocations w (pre ++ c :: post) j = some b →
        distMatrixEntry hav (buildLocations w (pre ++ c :: post)) 0 j =
          pyInt (hav (c.latitude, c.longitude) b * 1000) := by
  have h1 : buildLocations w (pre ++ c :: post) 0 = some (c.latitude, c.longitude) := by
    rw [buildLocations, List.foldl_append, List.foldl_cons]
    rw [buildLocations_preserve post _ 0 hpost]
    rw [if_pos hzero.symm]
  refine ⟨h1, ?_⟩
  intro j b hj hb
  rw [distMatrixEntry, if_neg fun he => hj he.symm, h1, hb]

theorem customer_zero_replaces_depot_witness :
    buildLocations mainWarehouse zeroIdCustomers 0 = some (7, 8) ∧
      some ((7 : ℚ), (8 : ℚ)) ≠
        some (mainWarehouse.latitude, mainWarehouse.longitude) := by
  constructor
  · exact (customer_zero_replaces_depot mainWarehouse [] [] ⟨0, 7, 8, 1, 10, 5, 1, 1⟩
      (fun _ _ => 0) rfl fun c2 hc2 => absurd hc2 (List.not_mem_nil c2)).1
  · norm_num [mainWarehouse, Prod.mk.injEq]

end LogiTrackPro
